import Mathlib

/-!
Shallow embedding of the persistent-memory append cache implemented in
src/extra/libpmemac/append_cache.c, together with theorems about its
reservation protocol, ring-buffer invariants, drain loop, directory
creation and validation, startup recovery and lifecycle operations.

Counters (reserved_eof, cached_eof, flushed_eof) are modelled as natural
numbers carrying the mathematical value of the corresponding u64 field;
wherever the C code performs uint64 arithmetic whose wraparound is
observable (the fetch-add on reserved_eof, the backpressure expression
flushed_eof + buffer_size - write_pos) the reduction modulo 2^64 is made
explicit.  Byte buffers and files are lists of naturals (byte values).
-/

namespace PMAC

/-- All on-media counters are 64-bit unsigned integers. -/
def U64 : Nat := 2 ^ 64

/-- File signature PMAC0 (append_cache.c, line 34). -/
def pmem_append_cache_magic : Nat := 0x0000003043414d50

/-- Modelled from the spec: sizeof of PMEM_APPEND_CACHE_DIRECTORY_HEADER.
The struct itself lives in append_cache.h, which is not under src/; the
spec (section 6, on-media layout) lays it out as two u64 fields
(magic, n_caches), hence 16 bytes. -/
def dirHeaderStructSize : Nat := 16

/-- Modelled from the spec: sizeof of PMEM_APPEND_CACHE_HEADER.  The struct
itself lives in append_cache.h, which is not under src/; the spec
(section 6) lays it out as three u64 fields (file_name_length,
flushed_eof, cached_eof), hence 24 bytes. -/
def cacheHeaderSize : Nat := 24

/-- directory_header_size (append_cache.c, lines 45-49):
sizeof(PMEM_APPEND_CACHE_DIRECTORY_HEADER) + sizeof(uint64_t) * n_caches. -/
def directory_header_size (n_caches : Nat) : Nat :=
  dirHeaderStructSize + 8 * n_caches

/-- Modelled from the spec: the atomic fetch-add on the 64-bit reserved_eof
field (append_cache.c, lines 250-252).  my_atomic.h is not under src/; per
the spec (section 4.3, step Reserve) the operation atomically adds the
write length to the u64 reserved_eof and yields the previous value.
Result: (previous value, new value), as 64-bit values. -/
def fetchAdd64 (cur add : Nat) : Nat × Nat :=
  (cur % U64, (cur + add) % U64)

/-- The backpressure expression flushed_eof + buffer_size - write_pos of
append_cache.c, lines 263-266, computed in uint64 arithmetic: the
subtraction wraps modulo 2^64.  The spin loop there exits as soon as this
value is nonzero, because avail is unsigned and `avail <= 0` can only hold
as `avail == 0`. -/
def availRaw (flushed bufSize writePos : Nat) : Nat :=
  (((flushed : Int) + bufSize - writePos) % (U64 : Int)).toNat

/-- Size of the contiguous run drained by one iteration of flush_cache
(append_cache.c, lines 190-193): the whole backlog when cached_eof and
flushed_eof fall in the same ring revolution, otherwise clipped at the
wrap boundary. -/
def chunkSize (bufSize flushed cached : Nat) : Nat :=
  if cached / bufSize = flushed / bufSize then cached - flushed
  else bufSize - flushed % bufSize

/-- Modelled from the spec: positioned write into the backing file
(my_pwrite, mysys, not under src/).  Writes data at byte offset off,
extending the file with zero bytes if off lies past the current end. -/
def pwriteBytes (file data : List Nat) (off : Nat) : List Nat :=
  file.take off ++ List.replicate (off - file.length) 0 ++ data ++
    file.drop (off + data.length)

/-- Contiguous slice of a byte list: len bytes starting at off. -/
def listSlice (l : List Nat) (off len : Nat) : List Nat :=
  (l.drop off).take len

/-- Outcome of one run of the flush_cache drain loop: the return value,
the final flushed_eof, the resulting backing file, and the trace of fully
successful chunks as (file offset, size) pairs. -/
structure FlushResult where
  res : Int
  flushed : Nat
  file : List Nat
  trace : List (Nat × Nat)
deriving DecidableEq

/-- The drain loop of flush_cache (append_cache.c, lines 183-207), with the
two fallible I/O operations of each iteration (my_pwrite and my_sync, mysys,
not under src/) modelled by the success oracles wok and sok, indexed by the
iteration counter k.  The buffer bytes of the run are read starting at
flushed % bufSize; the run is written at file offset flushed; flushed is
advanced (header copy and runtime copy store the same value and are
collapsed into one field) only after both the write and the sync succeed.
cached is the quiescent value of cached_eof: this models the
single-threaded uses (recovery, and a drain with no concurrent writer);
the concurrent re-read of cached_eof is covered by the step relation WStep
below.  fuel bounds the number of iterations; every iteration makes
progress of at least one byte, so ca - fl iterations always suffice. -/
def flushLoop (buf : List Nat) (bs ca : Nat) (wok sok : Nat → Bool) :
    Nat → Nat → List Nat → Nat → FlushResult
  | 0, fl, file, _ =>
      if fl < ca then ⟨-1, fl, file, []⟩ else ⟨0, fl, file, []⟩
  | fuel + 1, fl, file, k =>
      if fl < ca then
        if wok k then
          let file2 := pwriteBytes file (listSlice buf (fl % bs) (chunkSize bs fl ca)) fl
          if sok k then
            let r := flushLoop buf bs ca wok sok fuel (fl + chunkSize bs fl ca) file2 (k + 1)
            ⟨r.res, r.flushed, r.file, (fl, chunkSize bs fl ca) :: r.trace⟩
          else ⟨-1, fl, file2, []⟩
        else ⟨-1, fl, file, []⟩
      else ⟨0, fl, file, []⟩

/-- flush_cache (append_cache.c, lines 178-209) on a quiescent cache:
drains the backlog between flushed_eof fl and cached_eof ca from the ring
buffer buf into the backing file. -/
def flush_cache (buf : List Nat) (bs ca fl : Nat) (file : List Nat)
    (wok sok : Nat → Bool) : FlushResult :=
  flushLoop buf bs ca wok sok (ca - fl) fl file 0

/-- writesChain bs ca fl trace flEnd: the successful chunks recorded in
trace form a contiguous chain of drain runs starting at flushed_eof = fl:
each run is placed at file offset equal to the flushed_eof it started
from, has the size dictated by chunkSize, is nonempty, never crosses the
ring wrap boundary (fl % bs + size <= bs), never runs past cached_eof,
and flEnd is the flushed_eof reached after the last successful run. -/
def writesChain (bs ca : Nat) : Nat → List (Nat × Nat) → Nat → Prop
  | fl, [], flEnd => flEnd = fl
  | fl, (off, sz) :: rest, flEnd =>
      off = fl ∧ sz = chunkSize bs fl ca ∧ 0 < sz ∧ fl % bs + sz ≤ bs ∧
        fl + sz ≤ ca ∧ writesChain bs ca (fl + sz) rest flEnd

/-- One directory slot as seen by the startup recovery pass
pmem_append_cache_flush: the persisted header fields, the slot bytes that
follow the 24-byte header (filename bytes first, ring buffer bytes after
them, as laid out by open_cache lines 144-148), and the content of the
slot's backing file (none models a failing my_open). -/
structure FSlot where
  fnl : Nat
  flushed : Nat
  cached : Nat
  content : List Nat
  backing : Option (List Nat)
deriving DecidableEq

/-- The header-field validation performed by open_cache (append_cache.c,
lines 154-158) on a slot whose region geometry is already valid:
file_name_length must fit strictly inside the region past the header,
cached_eof must not trail flushed_eof, and the backlog must fit in the
ring buffer.  The ring buffer size is content.length - fnl. -/
def slotFieldsOk (s : FSlot) : Bool :=
  decide (s.fnl < s.content.length) && decide (s.flushed ≤ s.cached) &&
    decide (s.cached - s.flushed ≤ s.content.length - s.fnl)

/-- The per-slot body of the pmem_append_cache_flush loop (append_cache.c,
lines 432-464), for a slot whose region geometry is valid (the geometric
checks of open_cache concern the offset table and are modelled separately
by open_cache below; the header-field checks are retained here).  Free
slots are skipped; fully drained slots are freed without touching the
backing file; otherwise the code tests the byte at index file_name_length
of the stored filename (line 449) - note that for a name stored by attach
this index is one past the terminating NUL and addresses the first ring
buffer byte - then opens the backing file, fails on truncation below
flushed_eof, and runs the drain loop once.  my_open, my_fstat and my_close
(mysys, not under src/) are modelled as succeeding whenever a backing file
is present. -/
def flushSlot (wok sok : Nat → Bool) (s : FSlot) : Int × FSlot :=
  if slotFieldsOk s then
    if s.fnl = 0 then (0, s)
    else if s.flushed = s.cached then (0, { s with fnl := 0 })
    else if s.content.getD s.fnl 0 ≠ 0 then (-1, s)
    else
      match s.backing with
      | none => (-1, s)
      | some file =>
          if file.length < s.flushed then (-1, s)
          else
            let r := flush_cache (s.content.drop s.fnl) (s.content.length - s.fnl)
              s.cached s.flushed file wok sok
            (r.res, { s with flushed := r.flushed, backing := some r.file })
  else (-1, s)

/-- pmem_append_cache_flush (append_cache.c, lines 430-466): iterates the
slots in order, stopping with the first error and leaving the remaining
slots untouched. -/
def pmem_append_cache_flush (wok sok : Nat → Bool) : List FSlot → Int × List FSlot
  | [] => (0, [])
  | s :: rest =>
      let rs := flushSlot wok sok s
      if rs.1 ≠ 0 then (rs.1, rs.2 :: rest)
      else
        let rr := pmem_append_cache_flush wok sok rest
        (rr.1, rs.2 :: rr.2)

/-- Process-local view of an attached cache used by the executable model of
cache_write: the reservation counter, the committed counter (header copy
and runtime copy), the flushed counter (header copy and runtime copy; the
writer reads the runtime copy), the ring size and the ring contents. -/
structure WCache where
  reserved : Nat
  hdrCached : Nat
  cached : Nat
  hdrFlushed : Nat
  flushed : Nat
  bufSize : Nat
  buffer : List Nat
deriving DecidableEq

/-- pmem_memcpy_persist into the ring (append_cache.c, line 275): overwrite
data.length bytes of the ring starting at byte offset off. -/
def storeRing (buf : List Nat) (off : Nat) (data : List Nat) : List Nat :=
  buf.take off ++ data ++ buf.drop (off + data.length)

/-- The chunk loop of cache_write (append_cache.c, lines 257-293) as seen
by one call with no concurrent activity (the quiescent view; concurrent
interleavings are covered by the step relation WStep below).  Each
iteration computes the uint64 backpressure value availRaw and spins while
it is zero (fuel models the bounded backoff budget; none means the call is
still spinning), clips the chunk to the bytes left and to the wrap
boundary, copies it into the ring, waits until cached_eof has reached the
start of the reservation (under the quiescent view a wait that does not
pass immediately never passes, hence none), then publishes the new
write_pos to the header cached_eof and to the runtime copy. -/
def cacheWriteLoop (fuel : Nat) (s : WCache) (data : List Nat)
    (start wp left : Nat) : Option WCache :=
  match fuel with
  | 0 => none
  | f + 1 =>
      if availRaw s.flushed s.bufSize wp = 0 then
        cacheWriteLoop f s data start wp left
      else
        let a := min (min (availRaw s.flushed s.bufSize wp) left)
          (s.bufSize - wp % s.bufSize)
        let s1 := { s with buffer := storeRing s.buffer (wp % s.bufSize) (data.take a) }
        if s1.cached < start then none
        else
          let s2 := { s1 with hdrCached := wp + a, cached := wp + a }
          if left - a = 0 then some s2
          else cacheWriteLoop f s2 (data.drop a) start (wp + a) (left - a)

/-- cache_write (append_cache.c, lines 244-296), quiescent view.  A zero
length skips the reservation, the copy loop and the commit entirely; the
returned byte count is 0 when the caller passed MY_NABP or MY_FNABP
(condensed into the flag nabp) and length otherwise. -/
def cache_write (s : WCache) (data : List Nat) (length : Nat) (nabp : Bool)
    (fuel : Nat) : Option (Nat × WCache) :=
  if length ≠ 0 then
    match cacheWriteLoop fuel { s with reserved := (fetchAdd64 s.reserved length).2 }
        data (fetchAdd64 s.reserved length).1 (fetchAdd64 s.reserved length).1 length with
    | none => none
    | some s2 => some (if nabp then 0 else length, s2)
  else some (if nabp then 0 else length, s)

/-- The local state of one in-flight cache_write call: its reservation
start, its current write_pos, the bytes still to copy, and the size of a
chunk already copied into the ring but not yet committed (the code copies
at lines 257-279, then commits at lines 281-292 of the same iteration;
other threads act in between). -/
structure PWriter where
  start : Nat
  writePos : Nat
  left : Nat
  pending : Option Nat
deriving DecidableEq

/-- Shared state of one attached slot: the three counters (header copy and
runtime copy of cached_eof and flushed_eof always carry the same value
once the paired stores of lines 287-292 resp. 201-206 complete, and are
collapsed), the ring capacity, and the in-flight writers in reservation
order. -/
structure RingSys where
  flushed : Nat
  cached : Nat
  reserved : Nat
  bufSize : Nat
  writers : List PWriter
deriving DecidableEq

/-- Interleaved small-step semantics of cache_write and flush_cache on one
attached slot, translated from append_cache.c.
reserve: lines 247-254, a nonzero write fetch-adds its length onto
reserved_eof and joins the queue.
copy: lines 259-279, a writer whose uint64 backpressure value availRaw is
nonzero (the unsigned comparison avail <= 0 only holds at zero) clips a
chunk to its remaining bytes and the wrap boundary and copies it into the
ring.
commitMore / commitLast: lines 281-293, a writer whose copied chunk is
pending and whose reservation start has been reached by cached_eof
publishes its new write_pos; the call returns once no bytes are left.
flushChunk: lines 183-207, the flusher drains one contiguous run and
advances flushed_eof (a failing write or sync changes no counter). -/
inductive WStep : RingSys → RingSys → Prop
  | reserve (s : RingSys) (len : Nat) (hlen : 0 < len) :
      WStep s ⟨s.flushed, s.cached, s.reserved + len, s.bufSize,
        s.writers ++ [⟨s.reserved, s.reserved, len, none⟩]⟩
  | copy (s : RingSys) (pre post : List PWriter) (w : PWriter) (a : Nat)
      (hw : s.writers = pre ++ w :: post)
      (hpend : w.pending = none)
      (hleft : 0 < w.left)
      (hspin : availRaw s.flushed s.bufSize w.writePos ≠ 0)
      (ha : a = min (min (availRaw s.flushed s.bufSize w.writePos) w.left)
        (s.bufSize - w.writePos % s.bufSize)) :
      WStep s ⟨s.flushed, s.cached, s.reserved, s.bufSize,
        pre ++ ⟨w.start, w.writePos, w.left, some a⟩ :: post⟩
  | commitMore (s : RingSys) (pre post : List PWriter) (w : PWriter) (a : Nat)
      (hw : s.writers = pre ++ w :: post)
      (hpend : w.pending = some a)
      (hord : w.start ≤ s.cached)
      (hlt : a < w.left) :
      WStep s ⟨s.flushed, w.writePos + a, s.reserved, s.bufSize,
        pre ++ ⟨w.start, w.writePos + a, w.left - a, none⟩ :: post⟩
  | commitLast (s : RingSys) (pre post : List PWriter) (w : PWriter) (a : Nat)
      (hw : s.writers = pre ++ w :: post)
      (hpend : w.pending = some a)
      (hord : w.start ≤ s.cached)
      (heq : a = w.left) :
      WStep s ⟨s.flushed, w.writePos + a, s.reserved, s.bufSize, pre ++ post⟩
  | flushChunk (s : RingSys) (hlt : s.flushed < s.cached) :
      WStep s ⟨s.flushed + chunkSize s.bufSize s.flushed s.cached,
        s.cached, s.reserved, s.bufSize, s.writers⟩

/-- A slot just attached to an empty backing file (attach, lines 569-570,
seeds all three counters from the file size, here 0) with a ring of 10
bytes. -/
def ringInit : RingSys := ⟨0, 0, 0, 10, []⟩

/-- The state reached from ringInit by three concurrent 8-byte writes and
one drained chunk, in which the unflushed backlog cached_eof - flushed_eof
is 20 - 8 = 12 and exceeds the ring capacity 10. -/
def ringBad : RingSys := ⟨8, 20, 24, 10, [⟨16, 20, 4, none⟩]⟩

/-- The on-media content of a directory file: the two header fields, the
offset table (read at index i for slot i), and the mapped length. -/
structure DirMedia where
  magic : Nat
  n_caches : Nat
  offsets : Nat → Nat
  length : Nat

/-- A freshly created, zero-filled mapping (pmem_map_file with
PMEM_FILE_CREATE, append_cache.c lines 89-92, zero-fills the file). -/
def zeroMedia (size : Nat) : DirMedia := ⟨0, 0, fun _ => 0, size⟩

/-- Volatile and durable images of the directory file during creation: a
store updates only the volatile image; a pmem_persist call makes the
covered fields durable.  A crash keeps the durable image. -/
structure PMState where
  vol : DirMedia
  dur : DirMedia

/-- The state right after pmem_map_file in create_directory: both images
are the zero-filled file. -/
def initPM (size : Nat) : PMState := ⟨zeroMedia size, zeroMedia size⟩

/-- The successive mutation and persist steps of create_directory
(append_cache.c, lines 96-106), in program order. -/
inductive CreateStep
  | writeOffsets
  | writeNCaches
  | persistHeader
  | writeMagic
  | persistMagic

/-- cache_size computed by create_directory (line 85):
((size - header_size) / n_caches) with the low three bits cleared. -/
def cacheSizeOf (size n_caches : Nat) : Nat :=
  (size - directory_header_size n_caches) / n_caches -
    ((size - directory_header_size n_caches) / n_caches) % 8

/-- The argument checks of create_directory (lines 82-87) that precede any
file creation: size covers the header, n_caches is nonzero, and each slot
region holds at least one cache header. -/
def createOk (size n_caches : Nat) : Bool :=
  decide (directory_header_size n_caches ≤ size) && decide (n_caches ≠ 0) &&
    decide (cacheHeaderSize ≤ cacheSizeOf size n_caches)

/-- Effect of one creation step on the volatile/durable pair.  The loop of
lines 96-100 stores offset header_size + i * cache_size for every slot i;
line 101 stores n_caches; line 102 persists the header range (which spans
magic, n_caches and the offset table); line 104 stores the magic; line 105
persists the magic field. -/
def runCreateStep (size n_caches : Nat) (st : PMState) : CreateStep → PMState
  | .writeOffsets =>
      ⟨⟨st.vol.magic, st.vol.n_caches,
        fun i => if i < n_caches then
            directory_header_size n_caches + i * cacheSizeOf size n_caches
          else st.vol.offsets i,
        st.vol.length⟩, st.dur⟩
  | .writeNCaches =>
      ⟨⟨st.vol.magic, n_caches, st.vol.offsets, st.vol.length⟩, st.dur⟩
  | .persistHeader =>
      ⟨st.vol, ⟨st.vol.magic, st.vol.n_caches, st.vol.offsets, st.dur.length⟩⟩
  | .writeMagic =>
      ⟨⟨pmem_append_cache_magic, st.vol.n_caches, st.vol.offsets, st.vol.length⟩, st.dur⟩
  | .persistMagic =>
      ⟨st.vol, ⟨st.vol.magic, st.dur.n_caches, st.dur.offsets, st.dur.length⟩⟩

/-- The creation steps of create_directory in source order; the magic
store and its persist come last (lines 104-105). -/
def createSteps : List CreateStep :=
  [.writeOffsets, .writeNCaches, .persistHeader, .writeMagic, .persistMagic]

/-- Runs a list of creation steps. -/
def runCreate (size n_caches : Nat) (st : PMState) : List CreateStep → PMState
  | [] => st
  | step :: rest => runCreate size n_caches (runCreateStep size n_caches st step) rest

/-- The validation of pmem_append_cache_open (append_cache.c, lines
385-394) on a mapped directory file: the mapped length covers the
directory header, the magic matches, n_caches is nonzero, and the offset
table fits within the mapped length. -/
def pmem_append_cache_open_ok (m : DirMedia) : Prop :=
  ¬(m.length < dirHeaderStructSize ∨ m.magic ≠ pmem_append_cache_magic ∨
    m.n_caches = 0 ∨ (m.length - dirHeaderStructSize) / 8 < m.n_caches)

/-- The header fields stored at the start of a slot region. -/
structure CacheHdr where
  file_name_length : Nat
  flushed_eof : Nat
  cached_eof : Nat

/-- A mapped directory as read by open_cache: header fields, offset table,
mapped length, and the cache header found at any byte offset. -/
structure DirModel where
  n_caches : Nat
  mappedLength : Nat
  startOffsets : Nat → Nat
  hdrAt : Nat → CacheHdr

/-- The end of the region of slot n (append_cache.c, lines 133-134): the
mapped length for the last slot, otherwise the next slot start. -/
def cacheEnd (dir : DirModel) (n : Nat) : Nat :=
  if n = dir.n_caches - 1 then dir.mappedLength else dir.startOffsets (n + 1)

/-- The runtime cache descriptor produced by a successful open_cache. -/
structure OpenedCache where
  buffer_size : Nat
  flushed_eof : Nat
  cached_eof : Nat
  reserved_eof : Nat
  file_name_length : Nat
deriving DecidableEq

/-- open_cache (append_cache.c, lines 123-161).  Fails for an index beyond
n_caches; then validates the region geometry (start at or after the
directory header, start not beyond end, 8-byte alignment, room for one
cache header, end within the mapped length); then validates the header
fields (file_name_length strictly inside the region past the header,
cached_eof not below flushed_eof, backlog within the ring capacity).  On
success the descriptor carries buffer_size = region - header -
file_name_length and seeds reserved_eof from cached_eof (line 152). -/
def open_cache (dir : DirModel) (n : Nat) : Option OpenedCache :=
  if dir.n_caches ≤ n then none
  else if dir.startOffsets n < directory_header_size dir.n_caches ∨
      cacheEnd dir n < dir.startOffsets n ∨
      dir.startOffsets n % 8 ≠ 0 ∨
      cacheEnd dir n - dir.startOffsets n < cacheHeaderSize ∨
      dir.mappedLength < cacheEnd dir n then none
  else if cacheEnd dir n - dir.startOffsets n - cacheHeaderSize ≤
        (dir.hdrAt (dir.startOffsets n)).file_name_length ∨
      (dir.hdrAt (dir.startOffsets n)).cached_eof <
        (dir.hdrAt (dir.startOffsets n)).flushed_eof ∨
      cacheEnd dir n - dir.startOffsets n - cacheHeaderSize -
          (dir.hdrAt (dir.startOffsets n)).file_name_length <
        (dir.hdrAt (dir.startOffsets n)).cached_eof -
          (dir.hdrAt (dir.startOffsets n)).flushed_eof then none
  else some
    ⟨cacheEnd dir n - dir.startOffsets n - cacheHeaderSize -
        (dir.hdrAt (dir.startOffsets n)).file_name_length,
      (dir.hdrAt (dir.startOffsets n)).flushed_eof,
      (dir.hdrAt (dir.startOffsets n)).cached_eof,
      (dir.hdrAt (dir.startOffsets n)).cached_eof,
      (dir.hdrAt (dir.startOffsets n)).file_name_length⟩

/-- pmem_append_cache_detach (append_cache.c, lines 608-628) on the values
found after the flusher thread has been joined (its final drain included;
pthread operations, not under src/, are modelled as succeeding).  A
pass-through handle returns 0 at once.  Otherwise the slot is freed by
resetting and persisting file_name_length exactly when flushed_eof has
reached cached_eof; otherwise -1 is returned and the slot field is left
as it was.  Result: (return value, file_name_length after the call). -/
def pmem_append_cache_detach (passThrough : Bool) (flushed cached fnl : Nat) :
    Int × Nat :=
  if passThrough then (0, fnl)
  else if flushed = cached then (0, 0)
  else (-1, fnl)

/-- Crash-recovery input of claim C3: a reopened directory slot holding
filename bytes one hundred two, zero (a one-character name with its NUL,
file_name_length 2), a 16-byte ring whose first 10 bytes are the cached
but unflushed data 65..74, header cached_eof 10, flushed_eof 0, and an
empty backing file. -/
def slotCrashA : FSlot :=
  ⟨2, 0, 10, [102, 0, 65, 66, 67, 68, 69, 70, 71, 72, 73, 74, 0, 0, 0, 0, 0, 0],
    some []⟩

/-- Same crash-recovery state as slotCrashA except that the first cached
byte happens to be zero (data 0, 66..74), the one shape on which the check
at line 449 of append_cache.c lets the drain proceed. -/
def slotCrashB : FSlot :=
  ⟨2, 0, 10, [102, 0, 0, 66, 67, 68, 69, 70, 71, 72, 73, 74, 0, 0, 0, 0, 0, 0],
    some []⟩

/-- Claim C8 input: an attached slot with a correctly NUL-terminated
stored filename (bytes one hundred four, zero; file_name_length 2), one
cached unflushed byte 66 at ring offset 0, and a present backing file of
size 0, which is not below flushed_eof 0. -/
def slotTermName : FSlot := ⟨2, 0, 1, [104, 0, 66, 0, 0, 0], some []⟩

/-- Claim C8 input: an attached slot whose stored filename bytes are one
hundred four, one hundred five with no NUL inside its declared
file_name_length 2, while the first ring byte is zero. -/
def slotBadName : FSlot := ⟨2, 0, 1, [104, 105, 0, 0, 0, 0], some []⟩

/-- Claim C9 witness input: an attached slot (file_name_length 2) whose
header is fully drained (flushed_eof = cached_eof = 5). -/
def slotDrained : FSlot := ⟨2, 5, 5, [102, 0, 1, 2, 3], some [9, 9, 9, 9, 9]⟩

/-- Combinatorics of one drain run (append_cache.c, lines 190-193): for a
nonempty backlog and a nonzero ring, the run is nonempty, does not cross
the ring wrap boundary, and does not run past cached_eof. -/
theorem chunkSize_pos_nowrap (bs fl ca : Nat) (hbs : 0 < bs) (h : fl < ca) :
    0 < chunkSize bs fl ca ∧ fl % bs + chunkSize bs fl ca ≤ bs ∧
      fl + chunkSize bs fl ca ≤ ca := by
  unfold chunkSize
  by_cases hq : ca / bs = fl / bs
  · rw [if_pos hq]
    have d1 := Nat.div_add_mod fl bs
    have d2 := Nat.div_add_mod ca bs
    have hm1 : fl % bs < bs := Nat.mod_lt _ hbs
    have hm2 : ca % bs < bs := Nat.mod_lt _ hbs
    have he : bs * (ca / bs) = bs * (fl / bs) := by rw [hq]
    omega
  · rw [if_neg hq]
    have d1 := Nat.div_add_mod fl bs
    have d2 := Nat.div_add_mod ca bs
    have hm1 : fl % bs < bs := Nat.mod_lt _ hbs
    have hlt : fl / bs < ca / bs :=
      lt_of_le_of_ne (Nat.div_le_div_right (le_of_lt h)) (fun he => hq he.symm)
    have hmul : bs * (fl / bs + 1) ≤ bs * (ca / bs) := Nat.mul_le_mul_left _ hlt
    have hexp : bs * (fl / bs + 1) = bs * (fl / bs) + bs := by ring
    omega

/-- Soundness of the fuelled drain loop, by induction on the fuel: the
successful chunks form a writesChain, a zero result means the backlog was
fully drained, the result is 0 or -1, and a -1 result leaves flushed_eof
strictly short of cached_eof. -/
theorem flushLoop_sound (buf : List Nat) (bs ca : Nat) (wok sok : Nat → Bool)
    (hbs : 0 < bs) :
    ∀ fuel fl file k, fl ≤ ca → ca - fl ≤ fuel →
      writesChain bs ca fl (flushLoop buf bs ca wok sok fuel fl file k).trace
          (flushLoop buf bs ca wok sok fuel fl file k).flushed ∧
        ((flushLoop buf bs ca wok sok fuel fl file k).res = 0 →
          (flushLoop buf bs ca wok sok fuel fl file k).flushed = ca) ∧
        ((flushLoop buf bs ca wok sok fuel fl file k).res = 0 ∨
          (flushLoop buf bs ca wok sok fuel fl file k).res = -1) ∧
        ((flushLoop buf bs ca wok sok fuel fl file k).res = -1 →
          (flushLoop buf bs ca wok sok fuel fl file k).flushed < ca) := by
  intro fuel
  induction fuel with
  | zero =>
    intro fl file k hle hfuel
    have hfc : fl = ca := by omega
    subst hfc
    simp [flushLoop, writesChain]
  | succ f ih =>
    intro fl file k hle hfuel
    by_cases hfl : fl < ca
    · obtain ⟨hpos, hwrap, hca⟩ := chunkSize_pos_nowrap bs fl ca hbs hfl
      by_cases hw : wok k = true
      · by_cases hs : sok k = true
        · have hrec := ih (fl + chunkSize bs fl ca)
            (pwriteBytes file (listSlice buf (fl % bs) (chunkSize bs fl ca)) fl)
            (k + 1) hca (by omega)
          simp only [flushLoop, if_pos hfl, hw, hs, if_true] at hrec ⊢
          refine ⟨⟨rfl, rfl, hpos, hwrap, hca, hrec.1⟩, hrec.2.1, hrec.2.2.1, hrec.2.2.2⟩
        · simp only [flushLoop, if_pos hfl, hw, hs, if_true, Bool.false_eq_true, if_false]
          refine ⟨rfl, ?_, ?_, ?_⟩ <;> simp [hfl]
      · simp only [flushLoop, if_pos hfl, hw, Bool.false_eq_true, if_false]
        refine ⟨rfl, ?_, ?_, ?_⟩ <;> simp [hfl]
    · have hfc : fl = ca := by omega
      subst hfc
      simp [flushLoop, writesChain, hfl]

/-- C1: for every handle and every nonzero length, the Reserve step of
cache_write atomically adds length to the 64-bit reserved_eof counter and
returns the previous value as start, so the call owns exactly the byte
range from start to start + length (the next reservation starts at the
new value), and after the call reserved_eof equals its old value plus
length (as a 64-bit value; exactly, whenever the sum does not wrap). -/
theorem reserve_adds_and_returns_previous (r len : Nat) (hr : r < U64)
    (hlen : 0 < len) :
    (fetchAdd64 r len).1 = r ∧ (fetchAdd64 r len).2 = (r + len) % U64 ∧
      (r + len < U64 → (fetchAdd64 r len).2 = r + len) :=
  ⟨Nat.mod_eq_of_lt hr, rfl, fun h => Nat.mod_eq_of_lt h⟩

/-- Witness for reserve_adds_and_returns_previous at r = 5, len = 3. -/
theorem reserve_adds_and_returns_previous_witness :
    (5 : Nat) < U64 ∧ (0 : Nat) < 3 ∧
      ((fetchAdd64 5 3).1 = 5 ∧ (fetchAdd64 5 3).2 = (5 + 3) % U64 ∧
        (5 + 3 < U64 → (fetchAdd64 5 3).2 = 5 + 3)) :=
  ⟨by decide, by decide, reserve_adds_and_returns_previous 5 3 (by decide) (by decide)⟩

/-- C2: the claimed invariant fails on the code.  From a freshly attached
slot with a 10-byte ring, three concurrent 8-byte cache_write calls and
one drained chunk reach (through steps translated from append_cache.c) a
state with cached_eof = 20 and flushed_eof = 8, whose unflushed backlog 12
exceeds buffer_size = 10.  The root cause is the backpressure test of
line 266: avail is uint64, so the spin condition avail <= 0 only holds at
avail == 0, and a writer whose write_pos already lies beyond flushed_eof +
buffer_size computes a wrapped, huge avail and does not wait; its chunk,
clipped only by the wrap boundary, is later committed on top of a ring
area the flusher has not drained. -/
theorem write_overreservation_breaks_buffer_bound :
    Relation.ReflTransGen WStep ringInit ringBad ∧
      ringBad.bufSize < ringBad.cached - ringBad.flushed := by
  constructor
  · have h1 : WStep ⟨0, 0, 0, 10, []⟩ ⟨0, 0, 8, 10, [⟨0, 0, 8, none⟩]⟩ :=
      WStep.reserve ⟨0, 0, 0, 10, []⟩ 8 (by decide)
    have h2 : WStep ⟨0, 0, 8, 10, [⟨0, 0, 8, none⟩]⟩
        ⟨0, 0, 16, 10, [⟨0, 0, 8, none⟩, ⟨8, 8, 8, none⟩]⟩ :=
      WStep.reserve _ 8 (by decide)
    have h3 : WStep ⟨0, 0, 16, 10, [⟨0, 0, 8, none⟩, ⟨8, 8, 8, none⟩]⟩
        ⟨0, 0, 24, 10, [⟨0, 0, 8, none⟩, ⟨8, 8, 8, none⟩, ⟨16, 16, 8, none⟩]⟩ :=
      WStep.reserve _ 8 (by decide)
    have h4 : WStep ⟨0, 0, 24, 10, [⟨0, 0, 8, none⟩, ⟨8, 8, 8, none⟩, ⟨16, 16, 8, none⟩]⟩
        ⟨0, 0, 24, 10, [⟨0, 0, 8, some 8⟩, ⟨8, 8, 8, none⟩, ⟨16, 16, 8, none⟩]⟩ :=
      WStep.copy _ [] [⟨8, 8, 8, none⟩, ⟨16, 16, 8, none⟩] ⟨0, 0, 8, none⟩ 8
        rfl rfl (by decide) (by decide) (by decide)
    have h5 : WStep ⟨0, 0, 24, 10, [⟨0, 0, 8, some 8⟩, ⟨8, 8, 8, none⟩, ⟨16, 16, 8, none⟩]⟩
        ⟨0, 8, 24, 10, [⟨8, 8, 8, none⟩, ⟨16, 16, 8, none⟩]⟩ :=
      WStep.commitLast _ [] [⟨8, 8, 8, none⟩, ⟨16, 16, 8, none⟩] ⟨0, 0, 8, some 8⟩ 8
        rfl rfl (by decide) (by decide)
    have h6 : WStep ⟨0, 8, 24, 10, [⟨8, 8, 8, none⟩, ⟨16, 16, 8, none⟩]⟩
        ⟨0, 8, 24, 10, [⟨8, 8, 8, none⟩, ⟨16, 16, 8, some 4⟩]⟩ :=
      WStep.copy _ [⟨8, 8, 8, none⟩] [] ⟨16, 16, 8, none⟩ 4
        rfl rfl (by decide) (by decide) (by decide)
    have h7 : WStep ⟨0, 8, 24, 10, [⟨8, 8, 8, none⟩, ⟨16, 16, 8, some 4⟩]⟩
        ⟨8, 8, 24, 10, [⟨8, 8, 8, none⟩, ⟨16, 16, 8, some 4⟩]⟩ :=
      WStep.flushChunk _ (by decide)
    have h8 : WStep ⟨8, 8, 24, 10, [⟨8, 8, 8, none⟩, ⟨16, 16, 8, some 4⟩]⟩
        ⟨8, 8, 24, 10, [⟨8, 8, 8, some 2⟩, ⟨16, 16, 8, some 4⟩]⟩ :=
      WStep.copy _ [] [⟨16, 16, 8, some 4⟩] ⟨8, 8, 8, none⟩ 2
        rfl rfl (by decide) (by decide) (by decide)
    have h9 : WStep ⟨8, 8, 24, 10, [⟨8, 8, 8, some 2⟩, ⟨16, 16, 8, some 4⟩]⟩
        ⟨8, 10, 24, 10, [⟨8, 10, 6, none⟩, ⟨16, 16, 8, some 4⟩]⟩ :=
      WStep.commitMore _ [] [⟨16, 16, 8, some 4⟩] ⟨8, 8, 8, some 2⟩ 2
        rfl rfl (by decide) (by decide)
    have h10 : WStep ⟨8, 10, 24, 10, [⟨8, 10, 6, none⟩, ⟨16, 16, 8, some 4⟩]⟩
        ⟨8, 10, 24, 10, [⟨8, 10, 6, some 6⟩, ⟨16, 16, 8, some 4⟩]⟩ :=
      WStep.copy _ [] [⟨16, 16, 8, some 4⟩] ⟨8, 10, 6, none⟩ 6
        rfl rfl (by decide) (by decide) (by decide)
    have h11 : WStep ⟨8, 10, 24, 10, [⟨8, 10, 6, some 6⟩, ⟨16, 16, 8, some 4⟩]⟩
        ⟨8, 16, 24, 10, [⟨16, 16, 8, some 4⟩]⟩ :=
      WStep.commitLast _ [] [⟨16, 16, 8, some 4⟩] ⟨8, 10, 6, some 6⟩ 6
        rfl rfl (by decide) (by decide)
    have h12 : WStep ⟨8, 16, 24, 10, [⟨16, 16, 8, some 4⟩]⟩
        ⟨8, 20, 24, 10, [⟨16, 20, 4, none⟩]⟩ :=
      WStep.commitMore _ [] [] ⟨16, 16, 8, some 4⟩ 4
        rfl rfl (by decide) (by decide)
    exact Relation.ReflTransGen.head h1 (Relation.ReflTransGen.head h2
      (Relation.ReflTransGen.head h3 (Relation.ReflTransGen.head h4
      (Relation.ReflTransGen.head h5 (Relation.ReflTransGen.head h6
      (Relation.ReflTransGen.head h7 (Relation.ReflTransGen.head h8
      (Relation.ReflTransGen.head h9 (Relation.ReflTransGen.head h10
      (Relation.ReflTransGen.head h11 (Relation.ReflTransGen.head h12
        Relation.ReflTransGen.refl)))))))))))
  · decide

/-- C3: the claimed recovery behaviour fails on the code.  On the crash
state of the claim (cached_eof 10, flushed_eof 0) with generic nonzero
data, pmem_append_cache_flush returns -1 without appending anything and
without freeing the slot, because line 449 tests the byte at index
file_name_length of the stored name, which is the first ring data byte,
not the NUL terminator of the name.  Even on the one data shape that
passes that test (first cached byte zero, slotCrashB), a single run does
append exactly the 10 cached bytes but leaves file_name_length = 2, so the
slot is not freed by that run (the freeing branch of lines 442-448 runs
only on a later invocation, once flushed_eof = cached_eof). -/
theorem flush_all_crash_recovery_diverges :
    pmem_append_cache_flush (fun _ => true) (fun _ => true) [slotCrashA] =
        (-1, [slotCrashA]) ∧
      pmem_append_cache_flush (fun _ => true) (fun _ => true) [slotCrashB] =
        (0, [⟨2, 10, 10, [102, 0, 0, 66, 67, 68, 69, 70, 71, 72, 73, 74, 0, 0, 0, 0, 0, 0],
          some [0, 66, 67, 68, 69, 70, 71, 72, 73, 74]⟩]) := by
  decide

/-- C4: every iteration of the flush_cache drain loop writes the run that
starts at buffer offset flushed_eof mod buffer_size (so says the trace
offset together with the definition of flushLoop, which reads the ring at
fl % bs), places it at file offset flushed_eof, never crosses the ring
wrap boundary, and advances flushed_eof by exactly the successful runs;
when a positioned write or a sync fails the function returns -1 and
flushed_eof equals the end of the last successful chunk. -/
theorem flush_cache_drain_loop_sound (buf : List Nat) (bs ca fl : Nat)
    (file : List Nat) (wok sok : Nat → Bool) (hbs : 0 < bs) (hfl : fl ≤ ca) :
    writesChain bs ca fl (flush_cache buf bs ca fl file wok sok).trace
        (flush_cache buf bs ca fl file wok sok).flushed ∧
      ((flush_cache buf bs ca fl file wok sok).res = 0 →
        (flush_cache buf bs ca fl file wok sok).flushed = ca) ∧
      ((flush_cache buf bs ca fl file wok sok).res = 0 ∨
        (flush_cache buf bs ca fl file wok sok).res = -1) ∧
      ((flush_cache buf bs ca fl file wok sok).res = -1 →
        (flush_cache buf bs ca fl file wok sok).flushed < ca) :=
  flushLoop_sound buf bs ca wok sok hbs (ca - fl) fl file 0 hfl (le_refl _)

/-- Witness for flush_cache_drain_loop_sound on a 4-byte ring with a
6-byte backlog and all I/O succeeding. -/
theorem flush_cache_drain_loop_sound_witness :
    (0 : Nat) < 4 ∧ (0 : Nat) ≤ 6 ∧
      (writesChain 4 6 0
          (flush_cache [1, 2, 3, 4] 4 6 0 [] (fun _ => true) (fun _ => true)).trace
          (flush_cache [1, 2, 3, 4] 4 6 0 [] (fun _ => true) (fun _ => true)).flushed ∧
        ((flush_cache [1, 2, 3, 4] 4 6 0 [] (fun _ => true) (fun _ => true)).res = 0 →
          (flush_cache [1, 2, 3, 4] 4 6 0 [] (fun _ => true) (fun _ => true)).flushed = 6) ∧
        ((flush_cache [1, 2, 3, 4] 4 6 0 [] (fun _ => true) (fun _ => true)).res = 0 ∨
          (flush_cache [1, 2, 3, 4] 4 6 0 [] (fun _ => true) (fun _ => true)).res = -1) ∧
        ((flush_cache [1, 2, 3, 4] 4 6 0 [] (fun _ => true) (fun _ => true)).res = -1 →
          (flush_cache [1, 2, 3, 4] 4 6 0 [] (fun _ => true) (fun _ => true)).flushed < 6)) :=
  ⟨by decide, by decide,
    flush_cache_drain_loop_sound [1, 2, 3, 4] 4 6 0 [] (fun _ => true) (fun _ => true)
      (by decide) (by decide)⟩

/-- C5: during creation the magic is stored and persisted strictly after
the offsets and n_caches are written and persisted (createSteps is the
source order of lines 96-106), and the durable image produced by any
prefix of the creation steps that stops before the final magic persist is
rejected by pmem_append_cache_open, whose validation (lines 385-394)
checks the mapped length, the magic, a nonzero n_caches and that the
offset table fits in the mapped length: all such prefixes leave the
durable magic at its zero-filled value. -/
theorem create_magic_last_prefix_rejected (size n_caches k : Nat)
    (hc : createOk size n_caches = true) (hk : k < createSteps.length) :
    ¬ pmem_append_cache_open_ok
      (runCreate size n_caches (initPM size) (createSteps.take k)).dur := by
  have hk4 : k ≤ 4 := by simp [createSteps] at hk; omega
  interval_cases k <;>
    simp [createSteps, runCreate, runCreateStep, initPM, zeroMedia,
      pmem_append_cache_open_ok, pmem_append_cache_magic]

/-- Witness for create_magic_last_prefix_rejected: a 1024-byte directory
with two slots, crashing right after the magic store but before its
persist (prefix of length 4). -/
theorem create_magic_last_prefix_rejected_witness :
    createOk 1024 2 = true ∧ 4 < createSteps.length ∧
      ¬ pmem_append_cache_open_ok
        (runCreate 1024 2 (initPM 1024) (createSteps.take 4)).dur :=
  ⟨by decide, by decide,
    create_magic_last_prefix_rejected 1024 2 4 (by decide) (by decide)⟩

/-- C6: open_cache on slot index n fails exactly when one of the listed
conditions holds: index beyond n_caches, cache_start below the directory
header region, cache_start beyond cache_end, cache_start not 8-byte
aligned, region smaller than one cache header, cache_end beyond the
mapped length, file_name_length not fitting strictly inside the region,
cached_eof below flushed_eof, or a backlog larger than buffer_size. -/
theorem open_cache_fails_iff (dir : DirModel) (n : Nat) :
    open_cache dir n = none ↔
      (dir.n_caches ≤ n ∨
        dir.startOffsets n < directory_header_size dir.n_caches ∨
        cacheEnd dir n < dir.startOffsets n ∨
        dir.startOffsets n % 8 ≠ 0 ∨
        cacheEnd dir n - dir.startOffsets n < cacheHeaderSize ∨
        dir.mappedLength < cacheEnd dir n ∨
        ¬((dir.hdrAt (dir.startOffsets n)).file_name_length <
            cacheEnd dir n - dir.startOffsets n - cacheHeaderSize) ∨
        (dir.hdrAt (dir.startOffsets n)).cached_eof <
          (dir.hdrAt (dir.startOffsets n)).flushed_eof ∨
        cacheEnd dir n - dir.startOffsets n - cacheHeaderSize -
            (dir.hdrAt (dir.startOffsets n)).file_name_length <
          (dir.hdrAt (dir.startOffsets n)).cached_eof -
            (dir.hdrAt (dir.startOffsets n)).flushed_eof) := by
  unfold open_cache
  split_ifs with h1 h2 h3 <;> simp_all <;> tauto

/-- C7: on a cached-mode handle, detach resets and persists the slot
file_name_length to 0 exactly when the flusher final drain left
flushed_eof equal to cached_eof; otherwise it returns -1 and leaves the
slot field unchanged, keeping the slot claimed. -/
theorem detach_frees_iff_drained (fl ca fnl : Nat) :
    (fl = ca ∧ pmem_append_cache_detach false fl ca fnl = (0, 0)) ∨
      (fl ≠ ca ∧ pmem_append_cache_detach false fl ca fnl = (-1, fnl)) := by
  by_cases h : fl = ca <;> simp [pmem_append_cache_detach, h]

/-- C8: the claimed null-termination check fails on the code.  On a slot
whose stored name is correctly NUL-terminated within its declared
file_name_length but whose first ring byte is nonzero (slotTermName, with
a present backing file whose size is not below flushed_eof),
pmem_append_cache_flush returns -1 and never runs the drain loop, while
the claim requires it to drain; on a slot whose stored name has no NUL
within its declared length but whose first ring byte is zero
(slotBadName), the code proceeds to drain, while the claim requires it to
fail.  Line 449 reads file_name at index file_name_length, the byte one
past the stored name, which is the first ring buffer byte. -/
theorem flush_all_name_check_diverges :
    pmem_append_cache_flush (fun _ => true) (fun _ => true) [slotTermName] =
        (-1, [slotTermName]) ∧
      pmem_append_cache_flush (fun _ => true) (fun _ => true) [slotBadName] =
        (0, [⟨2, 1, 1, [104, 105, 0, 0, 0, 0], some [0]⟩]) := by
  decide

/-- C9: on any attached slot (valid header fields, file_name_length
nonzero) whose flushed_eof equals cached_eof, one run of the recovery pass
resets file_name_length to 0 and touches neither the backing file nor any
other field, and a second run immediately after skips the now-free slot
and changes nothing. -/
theorem flush_all_drained_slot_freed_then_noop (wok sok : Nat → Bool) (s : FSlot)
    (hfnl : s.fnl ≠ 0) (hok : slotFieldsOk s = true) (hdr : s.flushed = s.cached) :
    pmem_append_cache_flush wok sok [s] = (0, [{ s with fnl := 0 }]) ∧
      pmem_append_cache_flush wok sok [{ s with fnl := 0 }] =
        (0, [{ s with fnl := 0 }]) := by
  have hok2 : slotFieldsOk { s with fnl := 0 } = true := by
    simp [slotFieldsOk] at hok ⊢
    omega
  constructor
  · simp [pmem_append_cache_flush, flushSlot, hok, hfnl, hdr]
  · simp [pmem_append_cache_flush, flushSlot, hok2]

/-- Witness for flush_all_drained_slot_freed_then_noop on slotDrained. -/
theorem flush_all_drained_slot_freed_then_noop_witness :
    slotDrained.fnl ≠ 0 ∧ slotFieldsOk slotDrained = true ∧
      slotDrained.flushed = slotDrained.cached ∧
      (pmem_append_cache_flush (fun _ => true) (fun _ => true) [slotDrained] =
          (0, [{ slotDrained with fnl := 0 }]) ∧
        pmem_append_cache_flush (fun _ => true) (fun _ => true)
            [{ slotDrained with fnl := 0 }] = (0, [{ slotDrained with fnl := 0 }])) :=
  ⟨by decide, by decide, by decide,
    flush_all_drained_slot_freed_then_noop (fun _ => true) (fun _ => true) slotDrained
      (by decide) (by decide) (by decide)⟩

/-- C10: a cache_write call with length 0 performs no reservation, no
copy and no commit: every field of the handle (reserved_eof, the header
and runtime cached_eof, the header and runtime flushed_eof, the ring
contents) is unchanged, and the call returns 0 for every flags value. -/
theorem cache_write_zero_length_noop (s : WCache) (data : List Nat)
    (nabp : Bool) (fuel : Nat) :
    cache_write s data 0 nabp fuel = some (0, s) := by
  cases nabp <;> rfl

end PMAC
